import Mathlib

/-!
Verification of the goconfig INI configuration library (goconfig.go, read.go).

Strings are modelled as lists of characters (`Str`); on the ASCII inputs
appearing in the claims Go's byte indexing and character indexing coincide.
Go maps are modelled as association lists with first-match lookup and
in-place overwrite.  File handles, the BOM peek and the `sync.RWMutex`
calls guarded by `BlockMode` are outside the functional model: `read` is
modelled on the list of input lines produced by splitting the stream at
newline characters (each processed line is trimmed exactly as in the source).

`getValue` re-invokes itself while substituting `%(name)s` variables, so it
is modelled with an explicit fuel argument: `none` means the nesting depth
of recursive `getValue` calls exceeded the fuel.  A call that returns
`none` at every fuel corresponds to nontermination of the Go code.
-/

namespace Goconfig

abbrev Str : Type := List Char

def str (s : String) : Str := s.data

/-- Character 34, the double quote. -/
def dquote : Char := Char.ofNat 34

/-- Character 96, the backtick. -/
def bquote : Char := Char.ofNat 96

/-- goconfig.go: `DEFAULT_SECTION = "DEFAULT"`. -/
def DEFAULT_SECTION : Str := str "DEFAULT"

/-- goconfig.go: `_DEPTH_VALUES = 200`, the substitution iteration cap. -/
def DEPTH_VALUES : Nat := 200

/-- goconfig.go: `LineBreak` on non-Windows targets. -/
def LineBreak : Str := str "\n"

/-- unicode.IsSpace restricted to the ASCII range, as used by strings.TrimSpace. -/
def isSpaceChar (c : Char) : Bool :=
  c = ' ' ∨ c = '\t' ∨ c = '\x0a' ∨ c = '\x0d' ∨ c = '\x0b' ∨ c = '\x0c'

/-- strings.TrimSpace. -/
def trimSpace (s : Str) : Str :=
  ((s.dropWhile isSpaceChar).reverse.dropWhile isSpaceChar).reverse

/-- Go map read `m[k]`: first entry with the given key. -/
def lookupA {β : Type} : List (Str × β) → Str → Option β
  | [], _ => none
  | (ke, v) :: rest, k => if ke = k then some v else lookupA rest k

/-- Go map write `m[k] = v`: overwrite in place, append if absent. -/
def insertA {β : Type} : List (Str × β) → Str → β → List (Str × β)
  | [], k, v => [(k, v)]
  | (ke, ve) :: rest, k, v =>
    if ke = k then (k, v) :: rest else (ke, ve) :: insertA rest k v

/-- Go `delete(m, k)`. -/
def removeA {β : Type} : List (Str × β) → Str → List (Str × β)
  | [], _ => []
  | (ke, ve) :: rest, k =>
    if ke = k then rest else (ke, ve) :: removeA rest k

/-- strings.Index: first index at which `pat` occurs in `s` (`none` for Go's -1). -/
def indexOfSub (s pat : Str) : Option Nat :=
  (List.range (s.length + 1)).find? (fun p => pat.isPrefixOf (s.drop p))

/-- strings.LastIndex: last index at which `pat` occurs in `s` (`none` for Go's -1). -/
def lastIndexOfSub (s pat : Str) : Option Nat :=
  ((List.range (s.length + 1)).filter (fun p => pat.isPrefixOf (s.drop p))).getLast?

/-- strings.IndexAny(s, "=:"). -/
def indexAny (s : Str) : Option Nat :=
  s.findIdx? (fun c => c = '=' ∨ c = ':')

/-- Recursion skeleton of strings.Replace with count -1, made structural
on a fuel argument so that it reduces in the kernel.  Every recursive
step shortens the subject string by at least one character when `old` is
nonempty, so `fuel = s.length` never runs out (the `0, s => s` guard is
unreachable for nonempty `old`). -/
def replaceAllF (old new : Str) : Nat → Str → Str
  | 0, s => s
  | _ + 1, [] => []
  | fuel + 1, c :: rest =>
    if old ≠ [] ∧ old.isPrefixOf (c :: rest) then
      new ++ replaceAllF old new fuel ((c :: rest).drop old.length)
    else
      c :: replaceAllF old new fuel rest

/-- strings.Replace(s, old, new, -1): replace every (non-overlapping,
left-to-right) occurrence of `old` in `s` by `new`.  The Go code only
calls it with a nonempty `old`; for `old = []` this model leaves `s`
unchanged. -/
def replaceAll (s old new : Str) : Str :=
  replaceAllF old new s.length s

/-- Decimal digit character, for fmt.Sprint on a counter value. -/
def digitCh (d : Nat) : Char := Char.ofNat (48 + d)

/-- Recursion skeleton of the decimal representation, structural on a
fuel argument; `fuel = n` suffices since `n / 10 < n` at every step. -/
def natToStrF : Nat → Nat → Str
  | 0, n => [digitCh n]
  | fuel + 1, n =>
    if n < 10 then [digitCh n]
    else natToStrF fuel (n / 10) ++ [digitCh (n % 10)]

/-- fmt.Sprint on a natural number: decimal representation. -/
def natToStr (n : Nat) : Str := natToStrF n n

/-- goconfig.go: the `ParseError` enumeration. -/
inductive ParseError : Type where
  | sectionNotFound : ParseError
  | keyNotFound : ParseError
  | blankSectionName : ParseError
  | couldNotParse : ParseError
deriving DecidableEq

/-- goconfig.go: `getError{Reason, Name}`. -/
structure getError : Type where
  Reason : ParseError
  Name : Str
deriving DecidableEq

/-- read.go: `readError{Reason, Content}`. -/
structure readError : Type where
  Reason : ParseError
  Content : Str
deriving DecidableEq

/-- goconfig.go: the `ConfigFile` store (minus the lock and file names,
which do not affect the functional semantics). -/
structure ConfigFile : Type where
  data : List (Str × List (Str × Str))
  sectionList : List Str
  keyList : List (Str × List Str)
  sectionComments : List (Str × Str)
  keyComments : List (Str × List (Str × Str))
deriving DecidableEq

/-- goconfig.go: `newConfigFile` (all maps empty). -/
def newConfigFile : ConfigFile :=
  { data := [], sectionList := [], keyList := [],
    sectionComments := [], keyComments := [] }

/-- Blank section name represents the DEFAULT section (the normalization
performed at the top of getValue, setValue and the comment setters). -/
def normSec (sec : Str) : Str :=
  if sec = [] then DEFAULT_SECTION else sec

/-- Shared comment normalization: prefix with "; " unless the comment
already starts with '#' or ';' (goconfig.go lines 204-206 and 344-346). -/
def prefixComment (comments : Str) : Str :=
  if comments.head? = some '#' ∨ comments.head? = some ';' then comments
  else str "; " ++ comments

/-- goconfig.go: `setSectionComments`. -/
def setSectionComments (c : ConfigFile) (sec0 comments : Str) : Bool × ConfigFile :=
  let sec := normSec sec0
  if comments = [] then
    (true, { c with sectionComments := removeA c.sectionComments sec })
  else
    let existed := (lookupA c.sectionComments sec).isSome
    (!existed,
      { c with sectionComments := insertA c.sectionComments sec (prefixComment comments) })

/-- goconfig.go: `setValue`.  Returns (didInsert, new store). -/
def setValue (c : ConfigFile) (sec0 key value : Str) : Bool × ConfigFile :=
  let sec := normSec sec0
  if key = [] then (false, c)
  else
    let c1 :=
      match lookupA c.data sec with
      | some _ => c
      | none =>
        { c with data := insertA c.data sec [],
                 sectionList := c.sectionList ++ [sec] }
    let m := (lookupA c1.data sec).getD []
    let existed := (lookupA m key).isSome
    let c2 := { c1 with data := insertA c1.data sec (insertA m key value) }
    if existed then (false, c2)
    else
      (true,
        { c2 with keyList :=
            insertA c2.keyList sec ((lookupA c2.keyList sec).getD [] ++ [key]) })

/-- goconfig.go: `setKeyComments`. -/
def setKeyComments (c : ConfigFile) (sec0 key comments : Str) : Bool × ConfigFile :=
  let sec := normSec sec0
  match lookupA c.keyComments sec with
  | some m =>
    if comments = [] then
      (true, { c with keyComments := insertA c.keyComments sec (removeA m key) })
    else
      let existed := (lookupA m key).isSome
      (!existed,
        { c with keyComments := insertA c.keyComments sec (insertA m key (prefixComment comments)) })
  | none =>
    if comments = [] then (true, c)
    else
      (true,
        { c with keyComments := insertA c.keyComments sec (insertA [] key (prefixComment comments)) })

/-- The regexp `varPattern` matched at the start of `s`: a literal "%(",
then one or more characters other than ')' (greedy), then ")s".  Returns
the matched substring, as regexp.FindString does. -/
def matchVarAt (s : Str) : Option Str :=
  match s with
  | '%' :: '(' :: rest =>
    let run := rest.takeWhile (fun c => c ≠ ')')
    match rest.dropWhile (fun c => c ≠ ')') with
    | ')' :: 's' :: _ => if run = [] then none else some ('%' :: '(' :: (run ++ [')', 's']))
    | _ => none
  | _ => none

/-- varPattern.FindString: leftmost match of the `%(name)s` pattern. -/
def findVar : Str → Option Str
  | [] => none
  | c :: rest =>
    match matchVarAt (c :: rest) with
    | some m => some m
    | none => findVar rest

/-- goconfig.go lines 256-258: strings.TrimLeft(vr, "%(") followed by
strings.TrimRight(·, ")s").  Both are cutset trims: every leading
'%' or '(' character is removed, then every trailing ')' or 's'. -/
def trimName (vr : Str) : Str :=
  (((vr.dropWhile (fun c => c = '%' ∨ c = '(')).reverse).dropWhile
      (fun c => c = ')' ∨ c = 's')).reverse

/-- The substitution loop of getValue (goconfig.go lines 249-271),
abstracted over the recursive resolver.  `resolve` is
`getValue DEFAULT_SECTION`, `rawLookup` is the raw map read
`c.data[section][·]` of the current section, and `isDef` records whether
the current section is the DEFAULT section (in which case the Go code
skips the same-section fallback).  The first argument of the loop is the
number of iterations left (`_DEPTH_VALUES` minus the iterations done). -/
def substLoopG (resolve : Str → Option (Except getError Str))
    (rawLookup : Str → Option Str) (isDef : Bool) : Nat → Str → Option Str
  | 0, value => some value
  | n + 1, value =>
    match findVar value with
    | none => some value
    | some vr =>
      let noption := trimName vr
      match resolve noption with
      | none => none
      | some (Except.ok nv) =>
        substLoopG resolve rawLookup isDef n (replaceAll value vr nv)
      | some (Except.error _) =>
        let nvalue := if isDef then [] else (rawLookup noption).getD []
        substLoopG resolve rawLookup isDef n (replaceAll value vr nvalue)

/-- goconfig.go: `getValue`, with fuel bounding the depth of nested
recursive `getValue` calls (the sub-section fallback of line 241 and the
variable resolution of line 261).  `none` means the fuel was exhausted. -/
def getValueF (c : ConfigFile) : Nat → Str → Str → Option (Except getError Str)
  | 0, _, _ => none
  | fuel + 1, sec0, key =>
    match lookupA c.data (normSec sec0) with
    | none => some (Except.error ⟨ParseError.sectionNotFound, normSec sec0⟩)
    | some m =>
      match lookupA m key with
      | none =>
        match lastIndexOfSub (normSec sec0) (str ".") with
        | some i => getValueF c fuel ((normSec sec0).take i) key
        | none => some (Except.error ⟨ParseError.keyNotFound, key⟩)
      | some value =>
        (substLoopG (fun nm => getValueF c fuel DEFAULT_SECTION nm)
            (fun nm => lookupA m nm)
            (decide (normSec sec0 = DEFAULT_SECTION))
            DEPTH_VALUES value).map Except.ok

/-- goconfig.go: `MustValue` over an explicit store.  The Go variadic
default is a list; the result is `none` when the underlying `getValue`
ran out of fuel.  On a `getValue` error the value half of the Go pair is
the empty string. -/
def MustValueF (c : ConfigFile) (fuel : Nat) (sec key : Str)
    (defaultVal : List Str) : Option Str :=
  match getValueF c fuel sec key with
  | none => none
  | some r =>
    let val := match r with | Except.ok v => v | Except.error _ => []
    let isErr := match r with | Except.ok _ => false | Except.error _ => true
    if 0 < defaultVal.length ∧ (isErr = true ∨ val.length = 0) then
      some (defaultVal.headD [])
    else some val

/-- strconv.ParseBool: accepts exactly 1, t, T, TRUE, true, True,
0, f, F, FALSE, false, False. -/
def parseBool (s : Str) : Option Bool :=
  if s = str "1" ∨ s = str "t" ∨ s = str "T" ∨ s = str "TRUE" ∨
      s = str "true" ∨ s = str "True" then some true
  else if s = str "0" ∨ s = str "f" ∨ s = str "F" ∨ s = str "FALSE" ∨
      s = str "false" ∨ s = str "False" then some false
  else none

/-- goconfig.go: `Bool` over an explicit store: the (value, had-error)
pair of the Go call, `none` on fuel exhaustion.  On any error the value
half is `false`, as in Go. -/
def BoolF (c : ConfigFile) (fuel : Nat) (sec key : Str) : Option (Bool × Bool) :=
  match getValueF c fuel sec key with
  | none => none
  | some (Except.error _) => some (false, true)
  | some (Except.ok v) =>
    match parseBool v with
    | some b => some (b, false)
    | none => some (false, true)

/-- goconfig.go: `MustBool` over an explicit store. -/
def MustBoolF (c : ConfigFile) (fuel : Nat) (sec key : Str)
    (defaultVal : List Bool) : Option Bool :=
  match BoolF c fuel sec key with
  | none => none
  | some (val, isErr) =>
    if 0 < defaultVal.length ∧ isErr = true then some (defaultVal.headD false)
    else some val

/-- read.go lines 503-511: which quote marker (if any) opens the key. -/
def keyQuoteOf (line : Str) : Str :=
  if line.take 1 = [dquote] then
    if line.length ≥ 6 ∧ line.take 3 = [dquote, dquote, dquote] then
      [dquote, dquote, dquote]
    else [dquote]
  else if line.take 1 = [bquote] then [bquote]
  else []

/-- read.go lines 543-551: which quote marker (if any) opens the value. -/
def valQuoteOf (lineRight : Str) : Str :=
  let firstChar := if lineRight.length ≥ 2 then lineRight.take 1 else []
  if firstChar = [bquote] then [bquote]
  else if lineRight.length ≥ 6 ∧ lineRight.take 3 = [dquote, dquote, dquote] then
    [dquote, dquote, dquote]
  else []

/-- read.go lines 503-531: extract the key of a key/value line, returning
the key text and the absolute index of the `=`/`:` delimiter (Go's local
variables `keyQuote` and `pos` are written out as the expressions they
abbreviate). -/
def parseKey (line : Str) : Except readError (Str × Nat) :=
  if keyQuoteOf line = [] then
    match indexAny line with
    | none => Except.error ⟨ParseError.couldNotParse, line⟩
    | some i =>
      if i = 0 then Except.error ⟨ParseError.couldNotParse, line⟩
      else Except.ok (trimSpace (line.take i), i)
  else
    match indexOfSub (line.drop (keyQuoteOf line).length) (keyQuoteOf line) with
    | none => Except.error ⟨ParseError.couldNotParse, line⟩
    | some p =>
      match indexAny (line.drop (p + (keyQuoteOf line).length)) with
      | none => Except.error ⟨ParseError.couldNotParse, line⟩
      | some i0 =>
        if i0 = 0 then Except.error ⟨ParseError.couldNotParse, line⟩
        else Except.ok ((line.drop (keyQuoteOf line).length).take p,
          i0 + (p + (keyQuoteOf line).length))

/-- read.go lines 541-562: extract the value to the right of the
delimiter at absolute index `i` (Go's `lineRight` is the expression
`trimSpace (line.drop (i+1))`, written out). -/
def parseVal (line : Str) (i : Nat) : Except readError Str :=
  if valQuoteOf (trimSpace (line.drop (i + 1))) = [] then
    Except.ok (trimSpace (trimSpace (line.drop (i + 1))))
  else
    match lastIndexOfSub ((trimSpace (line.drop (i + 1))).drop
        (valQuoteOf (trimSpace (line.drop (i + 1)))).length)
      (valQuoteOf (trimSpace (line.drop (i + 1)))) with
    | none => Except.error ⟨ParseError.couldNotParse, line⟩
    | some p => Except.ok (((trimSpace (line.drop (i + 1))).drop
        (valQuoteOf (trimSpace (line.drop (i + 1)))).length).take p)

/-- CouldNotParse condition 1 (read.go lines 514-517): the line opens
with a key quote marker whose terminator is never found. -/
def keyTermMissing (line : Str) : Prop :=
  keyQuoteOf line ≠ [] ∧
    indexOfSub (line.drop (keyQuoteOf line).length) (keyQuoteOf line) = none

/-- CouldNotParse condition 2 (read.go lines 519-522): a quoted key is
terminated, but no `=`/`:` delimiter follows the closing marker, or the
delimiter sits immediately at it. -/
def keyDelimMissing (line : Str) : Prop :=
  keyQuoteOf line ≠ [] ∧ ∃ p,
    indexOfSub (line.drop (keyQuoteOf line).length) (keyQuoteOf line) = some p ∧
    (indexAny (line.drop (p + (keyQuoteOf line).length)) = none ∨
      indexAny (line.drop (p + (keyQuoteOf line).length)) = some 0)

/-- CouldNotParse condition 3 (read.go lines 526-529): an unquoted line
has no `=`/`:` delimiter, or the delimiter is at position 0 (empty key). -/
def unquotedDelimMissing (line : Str) : Prop :=
  keyQuoteOf line = [] ∧ (indexAny line = none ∨ indexAny line = some 0)

/-- CouldNotParse condition 4 (read.go lines 552-557): the trimmed right
side opens with a value quote marker whose terminator is absent. -/
def valTermMissing (line : Str) (i : Nat) : Prop :=
  valQuoteOf (trimSpace (line.drop (i + 1))) ≠ [] ∧
    lastIndexOfSub ((trimSpace (line.drop (i + 1))).drop
        (valQuoteOf (trimSpace (line.drop (i + 1)))).length)
      (valQuoteOf (trimSpace (line.drop (i + 1)))) = none

/-- read.go lines 494-562: parse one key/value line, including the
auto-increment replacement of a key written as "-" (lines 534-538).
Returns (key, value, new counter). -/
def parseKV (count : Nat) (line : Str) : Except readError (Str × Str × Nat) :=
  match parseKey line with
  | Except.error e => Except.error e
  | Except.ok (key0, i) =>
    let kc : Str × Nat :=
      if key0 = str "-" then ('#' :: natToStr count, count + 1) else (key0, count)
    match parseVal line i with
    | Except.error e => Except.error e
    | Except.ok value => Except.ok (kc.1, value, kc.2)

/-- The state threaded through read.go's line loop: the auto-increment
counter, the current section name, the pending comment buffer and the
store being populated. -/
structure RState : Type where
  count : Nat
  sec : Str
  comments : Str
  c : ConfigFile
deriving DecidableEq

/-- One iteration of read.go's line loop (the `switch` of lines 468-571). -/
def processLine (st : RState) (rawLine : Str) : Except readError RState :=
  let line := trimSpace rawLine
  match line with
  | [] => Except.ok st
  | ch :: rest =>
    if ch = '#' ∨ ch = ';' then
      Except.ok { st with comments :=
        if st.comments = [] then ch :: rest
        else st.comments ++ LineBreak ++ (ch :: rest) }
    else if ch = '[' ∧ (ch :: rest).getLast? = some ']' then
      let sec := trimSpace ((ch :: rest).drop 1).dropLast
      let c1 :=
        if st.comments = [] then st.c
        else (setSectionComments st.c sec st.comments).2
      let c2 := (setValue c1 sec (str " ") (str " ")).2
      Except.ok { count := 1, sec := sec, comments := [], c := c2 }
    else if st.sec = [] then
      Except.error ⟨ParseError.blankSectionName, ch :: rest⟩
    else
      match parseKV st.count (ch :: rest) with
      | Except.error e => Except.error e
      | Except.ok (key, value, count1) =>
        let c1 := (setValue st.c st.sec key value).2
        let c2 :=
          if st.comments = [] then c1
          else (setKeyComments c1 st.sec key st.comments).2
        Except.ok { count := count1, sec := st.sec, comments := [], c := c2 }

/-- read.go's loop over the remaining lines. -/
def readLoop (st : RState) : List Str → Except readError RState
  | [] => Except.ok st
  | l :: ls =>
    match processLine st l with
    | Except.error e => Except.error e
    | Except.ok st1 => readLoop st1 ls

/-- read.go: `read`, on the list of lines of the stream.  The counter
starts at 1 and the current section starts as the DEFAULT section
(read.go lines 446-448). -/
def readLines (c : ConfigFile) (lines : List Str) : Except readError ConfigFile :=
  match readLoop { count := 1, sec := DEFAULT_SECTION, comments := [], c := c } lines with
  | Except.error e => Except.error e
  | Except.ok st => Except.ok st.c

/-- A line whose trimmed form is a section header with empty trimmed
inner text (such as `[]` or `[ ]`): taking such a header is the only way
the reader's current section name can become the empty string. -/
def emptyHeaderLine (line : Str) : Bool :=
  match line with
  | [] => false
  | ch :: rest =>
    decide (ch = '[') && decide ((ch :: rest).getLast? = some ']') &&
      decide (trimSpace ((ch :: rest).drop 1).dropLast = [])

/-- The circular store of claim C1: keys a and b of the DEFAULT section
reference each other. -/
def circC : ConfigFile :=
  (setValue (setValue newConfigFile (str "DEFAULT") (str "a") (str "%(b)s")).2
    (str "DEFAULT") (str "b") (str "%(a)s")).2

/-- Store for the C3 counterexample: DEFAULT.k = "%(hosts)s" and
DEFAULT.hosts = "H". -/
def hostsC : ConfigFile :=
  (setValue (setValue newConfigFile (str "DEFAULT") (str "k") (str "%(hosts)s")).2
    (str "DEFAULT") (str "hosts") (str "H")).2

/-- Store for the C6 counterexample: section s, key k first set to "A",
then overwritten with the placeholder value "%(x)s". -/
def overwriteC : ConfigFile :=
  (setValue (setValue newConfigFile (str "s") (str "k") (str "A")).2
    (str "s") (str "k") (str "%(x)s")).2

/-- Store for the C4 witness: section s holds k, section a.b holds z. -/
def c4ex : ConfigFile :=
  (setValue (setValue newConfigFile (str "s") (str "k") (str "v")).2
    (str "a.b") (str "z") (str "w")).2

/-- Store for the C10 witness: t.e holds the empty string, t.bf holds
the parseable boolean text "false". -/
def c10ex : ConfigFile :=
  (setValue (setValue newConfigFile (str "t") (str "e") []).2
    (str "t") (str "bf") (str "false")).2

theorem lookupA_insertA_self {β : Type} (m : List (Str × β)) (k : Str) (v : β) :
    lookupA (insertA m k v) k = some v := by
  induction m with
  | nil => simp [insertA, lookupA]
  | cons e rest ih =>
    by_cases h : e.1 = k
    · simp [insertA, lookupA, h]
    · simp [insertA, lookupA, h, ih]

theorem substLoopG_noVar (resolve : Str → Option (Except getError Str))
    (rawLookup : Str → Option Str) (isDef : Bool) (n : Nat) (value : Str)
    (h : findVar value = none) :
    substLoopG resolve rawLookup isDef (n + 1) value = some value := by
  simp [substLoopG, h]

theorem substLoopG_step (resolve : Str → Option (Except getError Str))
    (rawLookup : Str → Option Str) (isDef : Bool) (n : Nat) (value vr : Str)
    (h : findVar value = some vr) :
    substLoopG resolve rawLookup isDef (n + 1) value =
      match resolve (trimName vr) with
      | none => none
      | some (Except.ok nv) =>
        substLoopG resolve rawLookup isDef n (replaceAll value vr nv)
      | some (Except.error _) =>
        substLoopG resolve rawLookup isDef n
          (replaceAll value vr (if isDef then [] else (rawLookup (trimName vr)).getD [])) := by
  simp only [substLoopG, h]

theorem substLoopG_resolve_none (resolve : Str → Option (Except getError Str))
    (rawLookup : Str → Option Str) (isDef : Bool) (n : Nat) (value vr : Str)
    (h : findVar value = some vr) (h2 : resolve (trimName vr) = none) :
    substLoopG resolve rawLookup isDef (n + 1) value = none := by
  rw [substLoopG_step resolve rawLookup isDef n value vr h, h2]

theorem getValueF_found (c : ConfigFile) (fuel : Nat) (sec0 key : Str)
    (m : List (Str × Str)) (v : Str)
    (hm : lookupA c.data (normSec sec0) = some m) (hv : lookupA m key = some v) :
    getValueF c (fuel + 1) sec0 key =
      (substLoopG (fun nm => getValueF c fuel DEFAULT_SECTION nm)
          (fun nm => lookupA m nm)
          (decide (normSec sec0 = DEFAULT_SECTION))
          DEPTH_VALUES v).map Except.ok := by
  simp only [getValueF, hm, hv]

theorem setValue_found (c : ConfigFile) (s k v : Str) (hk : k ≠ []) :
    ∃ m, lookupA ((setValue c s k v).2).data (normSec s) = some m ∧
      lookupA m k = some v := by
  rcases h : lookupA c.data (normSec s) with _ | m0
  · refine ⟨insertA [] k v, ?_, lookupA_insertA_self _ _ _⟩
    simp only [setValue, if_neg hk, h]
    have h2 : lookupA (insertA c.data (normSec s) ([] : List (Str × Str))) (normSec s)
        = some [] := lookupA_insertA_self _ _ _
    split <;> simp [h2, lookupA_insertA_self]
  · refine ⟨insertA m0 k v, ?_, lookupA_insertA_self _ _ _⟩
    simp only [setValue, if_neg hk, h]
    split <;> simp [h, lookupA_insertA_self]

theorem getValue_after_set (c : ConfigFile) (s k v : Str) (fuel : Nat)
    (hk : k ≠ []) (hv : findVar v = none) :
    getValueF ((setValue c s k v).2) (fuel + 1) s k = some (Except.ok v) := by
  obtain ⟨m, hm, hmk⟩ := setValue_found c s k v hk
  rw [getValueF_found _ fuel s k m v hm hmk]
  have hD : DEPTH_VALUES = 199 + 1 := rfl
  rw [hD, substLoopG_noVar _ _ _ _ _ hv]
  rfl

theorem setValue_nil_key (c : ConfigFile) (s v : Str) :
    setValue c s [] v = (false, c) := rfl

theorem setValue_fst (c : ConfigFile) (s k v : Str) (hk : k ≠ []) :
    (setValue c s k v).1 =
      !(lookupA ((lookupA c.data (normSec s)).getD []) k).isSome := by
  rcases h : lookupA c.data (normSec s) with _ | m0
  · simp only [setValue, if_neg hk, h]
    have h2 : lookupA (insertA c.data (normSec s) ([] : List (Str × Str))) (normSec s)
        = some [] := lookupA_insertA_self _ _ _
    simp only [h2]
    split <;> simp_all [lookupA]
  · simp only [setValue, if_neg hk, h]
    split <;> simp_all

theorem setValue_sectionList_new (c : ConfigFile) (s k v : Str) (hk : k ≠ [])
    (hs : lookupA c.data (normSec s) = none) :
    ((setValue c s k v).2).sectionList = c.sectionList ++ [normSec s] := by
  simp only [setValue, if_neg hk, hs]
  have h2 : lookupA (insertA c.data (normSec s) ([] : List (Str × Str))) (normSec s)
      = some [] := lookupA_insertA_self _ _ _
  simp only [h2]
  split <;> simp

theorem setValue_sectionList_old (c : ConfigFile) (s k v : Str) (hk : k ≠ [])
    (m0 : List (Str × Str)) (hs : lookupA c.data (normSec s) = some m0) :
    ((setValue c s k v).2).sectionList = c.sectionList := by
  simp only [setValue, if_neg hk, hs]
  split <;> simp

theorem setValue_keyList_overwrite (c : ConfigFile) (s k v : Str) (hk : k ≠ [])
    (hex : (lookupA ((lookupA c.data (normSec s)).getD []) k).isSome = true) :
    ((setValue c s k v).2).keyList = c.keyList := by
  rcases h : lookupA c.data (normSec s) with _ | m0
  · rw [h] at hex
    simp [lookupA] at hex
  · rw [h] at hex
    simp only [Option.getD_some] at hex
    simp only [setValue, if_neg hk, h, Option.getD_some, hex]
    simp

theorem setValue_keyList_new (c : ConfigFile) (s k v : Str) (hk : k ≠ [])
    (hex : (lookupA ((lookupA c.data (normSec s)).getD []) k).isSome = false) :
    lookupA ((setValue c s k v).2).keyList (normSec s) =
      some ((lookupA c.keyList (normSec s)).getD [] ++ [k]) := by
  rcases h : lookupA c.data (normSec s) with _ | m0
  · rw [h] at hex
    simp only [setValue, if_neg hk, h]
    have h2 : lookupA (insertA c.data (normSec s) ([] : List (Str × Str))) (normSec s)
        = some [] := lookupA_insertA_self _ _ _
    simp only [h2]
    have h3 : (lookupA ([] : List (Str × Str)) k).isSome = false := rfl
    simp only [Option.getD_some, h3]
    simp [lookupA_insertA_self]
  · rw [h] at hex
    simp only [Option.getD_some] at hex
    simp only [setValue, if_neg hk, h, Option.getD_some, hex]
    simp [lookupA_insertA_self]

theorem mem_of_getElem_opt (l : Str) (i : Nat) (a : Char) (h : l[i]? = some a) :
    a ∈ l := by
  obtain ⟨hlt, he⟩ := List.getElem?_eq_some_iff.mp h
  exact he ▸ List.getElem_mem hlt

theorem isPrefixOf_singleton (ch : Char) (l : Str) :
    (([ch] : Str).isPrefixOf l = true) ↔ l.head? = some ch := by
  cases l with
  | nil => simp [ List.isPrefixOf_iff_prefix]
  | cons c t =>
    simp only [ List.isPrefixOf_iff_prefix, List.cons_prefix_cons, List.nil_prefix,
      and_true, List.head?_cons, Option.some.injEq]
    exact eq_comm

theorem lastIndexOfSub_singleton_none_iff (s : Str) (ch : Char) :
    lastIndexOfSub s [ch] = none ↔ ch ∉ s := by
  unfold lastIndexOfSub
  rw [List.getLast?_eq_none_iff, List.filter_eq_nil_iff]
  constructor
  · intro h hmem
    obtain ⟨i, hi⟩ := List.mem_iff_getElem?.mp hmem
    have hlt : i < s.length := (List.getElem?_eq_some_iff.mp hi).1
    refine h i (List.mem_range.mpr (by omega)) ?_
    rw [isPrefixOf_singleton, List.head?_drop]
    exact hi
  · intro h i hir hp
    rw [isPrefixOf_singleton, List.head?_drop] at hp
    exact h (mem_of_getElem_opt s i ch hp)

theorem getLast_pairwise_max (l : List Nat) (x : Nat)
    (hp : l.Pairwise (fun a b => a < b)) (h : l.getLast? = some x) :
    x ∈ l ∧ ∀ y ∈ l, y ≤ x := by
  induction l with
  | nil => simp at h
  | cons a t ih =>
    rcases List.pairwise_cons.mp hp with ⟨ha, hp2⟩
    cases t with
    | nil =>
      simp only [List.getLast?_singleton, Option.some.injEq] at h
      subst h
      simp
    | cons b u =>
      rw [List.getLast?_cons_cons] at h
      obtain ⟨hmem, hmax⟩ := ih hp2 h
      refine ⟨List.mem_cons_of_mem a hmem, ?_⟩
      intro y hy
      rcases List.mem_cons.mp hy with rfl | hy2
      · exact le_of_lt (ha x hmem)
      · exact hmax y hy2

theorem lastIndexOfSub_singleton_some (s : Str) (ch : Char) (i : Nat)
    (h : lastIndexOfSub s [ch] = some i) :
    s[i]? = some ch ∧ ∀ j, i < j → s[j]? ≠ some ch := by
  unfold lastIndexOfSub at h
  obtain ⟨hmem, hmax⟩ := getLast_pairwise_max _ i
    (List.Pairwise.filter _ (List.pairwise_lt_range _)) h
  have hpi := List.of_mem_filter hmem
  rw [isPrefixOf_singleton, List.head?_drop] at hpi
  refine ⟨hpi, ?_⟩
  intro j hij hj
  have hjlen : j < s.length := (List.getElem?_eq_some_iff.mp hj).1
  have hjmem : j ∈ (List.range (s.length + 1)).filter
      (fun p => (([ch] : Str).isPrefixOf (s.drop p) : Bool)) := by
    rw [List.mem_filter]
    refine ⟨List.mem_range.mpr (by omega), ?_⟩
    rw [isPrefixOf_singleton, List.head?_drop]
    exact hj
  have := hmax j hjmem
  omega

theorem findVar_first (value vr : Str) (h : findVar value = some vr) :
    ∃ p, matchVarAt (value.drop p) = some vr ∧
      ∀ q, q < p → matchVarAt (value.drop q) = none := by
  induction value with
  | nil => simp [findVar] at h
  | cons c rest ih =>
    rcases hm : matchVarAt (c :: rest) with _ | m
    · simp only [findVar, hm] at h
      obtain ⟨p, hp1, hp2⟩ := ih h
      refine ⟨p + 1, by simpa using hp1, ?_⟩
      intro q hq
      cases q with
      | zero => simpa using hm
      | succ q2 =>
        have := hp2 q2 (by omega)
        simpa using this
    · simp only [findVar, hm, Option.some.injEq] at h
      subst h
      exact ⟨0, by simpa using hm, fun q hq => absurd hq (Nat.not_lt_zero q)⟩

/-- C1: the spec states that with `a=%(b)s` and `b=%(a)s` stored in the
DEFAULT section, `getValue("DEFAULT","a")` terminates within the
200-iteration substitution cap and returns the unresolved placeholder as
literal text.  The code does not: each substitution iteration re-invokes
the full `getValue` on the referenced name against the DEFAULT section
(goconfig.go line 261), and that recursive call runs its own substitution
loop, so the two keys resolve each other with no depth bound across
calls.  In the fuel semantics this divergence surfaces as `none` (fuel
exhausted) at every fuel.  The 200-iteration cap only bounds the loop
within one call; it does not make this input terminate. -/
theorem C1_circular_default_substitution_diverges :
    ∀ fuel : Nat, getValueF circC fuel (str "DEFAULT") (str "a") = none ∧
      getValueF circC fuel (str "DEFAULT") (str "b") = none := by
  intro fuel
  induction fuel with
  | zero => exact ⟨rfl, rfl⟩
  | succ n ih =>
    have hm : lookupA circC.data (normSec (str "DEFAULT"))
        = some [(str "a", str "%(b)s"), (str "b", str "%(a)s")] := rfl
    have hD : DEPTH_VALUES = 199 + 1 := rfl
    constructor
    · rw [getValueF_found circC n (str "DEFAULT") (str "a") _ _ hm rfl, hD,
        substLoopG_resolve_none (fun nm => getValueF circC n DEFAULT_SECTION nm)
          (fun nm => lookupA [(str "a", str "%(b)s"), (str "b", str "%(a)s")] nm)
          (decide (normSec (str "DEFAULT") = DEFAULT_SECTION)) 199
          (str "%(b)s") (str "%(b)s") rfl ih.2]
      rfl
    · rw [getValueF_found circC n (str "DEFAULT") (str "b") _ _ hm rfl, hD,
        substLoopG_resolve_none (fun nm => getValueF circC n DEFAULT_SECTION nm)
          (fun nm => lookupA [(str "a", str "%(b)s"), (str "b", str "%(a)s")] nm)
          (decide (normSec (str "DEFAULT") = DEFAULT_SECTION)) 199
          (str "%(a)s") (str "%(a)s") rfl ih.1]
      rfl

/-- C2 counterexample: a key/value line arriving before any section
header does NOT fail with BlankSectionName.  The reader starts with the
current section already set to DEFAULT (read.go line 448), so the line
`a=1` with no preceding header parses successfully and is stored in the
DEFAULT section. -/
theorem C2_counterexample :
    (readLines newConfigFile [str "a=1"]).map
        (fun c => lookupA ((lookupA c.data (str "DEFAULT")).getD []) (str "a"))
      = Except.ok (some (str "1")) := rfl


/-- C3 counterexample: the claim says the name between `%(` and `)s` is
resolved exactly.  With DEFAULT.k = `%(hosts)s` and DEFAULT.hosts = "H",
exact resolution would produce "H"; the code instead trims every
trailing ')' and 's' character from the match (strings.TrimRight with a
cutset, goconfig.go line 258), looks up the truncated name "host",
finds nothing, and substitutes the empty string. -/
theorem C3_counterexample :
    getValueF hostsC 20 (str "DEFAULT") (str "k") = some (Except.ok []) ∧
      lookupA ((lookupA hostsC.data (str "DEFAULT")).getD []) (str "hosts")
        = some (str "H") ∧
      trimName (str "%(hosts)s") = str "host" :=
  ⟨rfl, rfl, rfl⟩

/-- C3 (amended): each substitution iteration finds the first (leftmost)
`%(name)s` placeholder, resolves the name obtained by trimming all
leading '%'/'(' characters and all trailing ')'/'s' characters from the
match (so `%(hosts)s` resolves `host`), by a full recursive getValue
against the DEFAULT section first and, when that errors and the current
section is not DEFAULT, a raw map lookup in the current section; it then
replaces every occurrence of the exact placeholder text with the
resolved string (the empty string when unresolved).  Conjunct 1: the
loop-step equation with the trimmed name and all-occurrence replacement.
Conjunct 2: the substitution loop is entered with resolver
`getValue(DEFAULT, ·)` and raw same-section fallback.  Conjunct 3: the
placeholder found is the leftmost match of the pattern. -/
theorem C3_substitution_semantics :
    (∀ (resolve : Str → Option (Except getError Str))
        (rawLookup : Str → Option Str) (isDef : Bool) (n : Nat) (value vr : Str),
        findVar value = some vr →
        substLoopG resolve rawLookup isDef (n + 1) value =
          match resolve (trimName vr) with
          | none => none
          | some (Except.ok nv) =>
            substLoopG resolve rawLookup isDef n (replaceAll value vr nv)
          | some (Except.error _) =>
            substLoopG resolve rawLookup isDef n
              (replaceAll value vr
                (if isDef then [] else (rawLookup (trimName vr)).getD []))) ∧
    (∀ (c : ConfigFile) (fuel : Nat) (sec0 key : Str) (m : List (Str × Str)) (v : Str),
        lookupA c.data (normSec sec0) = some m → lookupA m key = some v →
        getValueF c (fuel + 1) sec0 key =
          (substLoopG (fun nm => getValueF c fuel DEFAULT_SECTION nm)
              (fun nm => lookupA m nm)
              (decide (normSec sec0 = DEFAULT_SECTION))
              DEPTH_VALUES v).map Except.ok) ∧
    (∀ value vr : Str, findVar value = some vr →
        ∃ p, matchVarAt (value.drop p) = some vr ∧
          ∀ q, q < p → matchVarAt (value.drop q) = none) :=
  ⟨fun resolve rawLookup isDef n value vr h =>
      substLoopG_step resolve rawLookup isDef n value vr h,
    fun c fuel sec0 key m v hm hv => getValueF_found c fuel sec0 key m v hm hv,
    fun value vr h => findVar_first value vr h⟩

/-- C3 witness: the three conjuncts applied at concrete inputs. -/
theorem C3_substitution_semantics_witness :
    substLoopG (fun _ => some (Except.error ⟨ParseError.keyNotFound, str "x"⟩))
        (fun _ => none) false 1 (str "%(x)s")
      = substLoopG (fun _ => some (Except.error ⟨ParseError.keyNotFound, str "x"⟩))
          (fun _ => none) false 0 (replaceAll (str "%(x)s") (str "%(x)s") []) ∧
    getValueF hostsC 4 (str "DEFAULT") (str "k")
      = (substLoopG (fun nm => getValueF hostsC 3 DEFAULT_SECTION nm)
          (fun nm => lookupA [(str "k", str "%(hosts)s"), (str "hosts", str "H")] nm)
          (decide (normSec (str "DEFAULT") = DEFAULT_SECTION))
          DEPTH_VALUES (str "%(hosts)s")).map Except.ok ∧
    (∃ p, matchVarAt ((str "a%(b)s").drop p) = some (str "%(b)s") ∧
      ∀ q, q < p → matchVarAt ((str "a%(b)s").drop q) = none) :=
  ⟨C3_substitution_semantics.1
      (fun _ => some (Except.error ⟨ParseError.keyNotFound, str "x"⟩))
      (fun _ => none) false 0 (str "%(x)s") (str "%(x)s") rfl,
    C3_substitution_semantics.2.1 hostsC 3 (str "DEFAULT") (str "k")
      [(str "k", str "%(hosts)s"), (str "hosts", str "H")] (str "%(hosts)s") rfl rfl,
    C3_substitution_semantics.2.2 (str "a%(b)s") (str "%(b)s") rfl⟩

/-- C4: getValue on a never-created section returns SectionNotFound; on
an existing section lacking the key it returns KeyNotFound, unless the
section name contains a '.', in which case the lookup is retried
recursively on the section name truncated at the last '.'.  The inner
conjuncts also certify that the code's LastIndex test is equivalent to
'.'-membership and that the returned index is the position of the last
'.' of the name. -/
theorem C4_lookup_errors (c : ConfigFile) (sec key : Str) (fuel : Nat)
    (hs : sec ≠ []) :
    (lookupA c.data sec = none →
        getValueF c (fuel + 1) sec key
          = some (Except.error ⟨ParseError.sectionNotFound, sec⟩)) ∧
    (∀ m, lookupA c.data sec = some m → lookupA m key = none →
        (lastIndexOfSub sec (str ".") = none ↔ '.' ∉ sec) ∧
        (lastIndexOfSub sec (str ".") = none →
          getValueF c (fuel + 1) sec key
            = some (Except.error ⟨ParseError.keyNotFound, key⟩)) ∧
        (∀ i, lastIndexOfSub sec (str ".") = some i →
          sec[i]? = some '.' ∧ (∀ j, i < j → sec[j]? ≠ some '.') ∧
          getValueF c (fuel + 1) sec key = getValueF c fuel (sec.take i) key)) := by
  have hnorm : normSec sec = sec := if_neg hs
  constructor
  · intro h0
    simp only [getValueF, hnorm, h0]
  · intro m hm hk
    refine ⟨lastIndexOfSub_singleton_none_iff sec '.', ?_, ?_⟩
    · intro hdot
      simp only [getValueF, hnorm, hm, hk, hdot]
    · intro i hdot
      obtain ⟨h1, h2⟩ := lastIndexOfSub_singleton_some sec '.' i hdot
      refine ⟨h1, h2, ?_⟩
      simp only [getValueF, hnorm, hm, hk, hdot]

/-- C4 witness: the three branches exercised on the store with sections
`s` and `a.b`. -/
theorem C4_lookup_errors_witness :
    getValueF c4ex 5 (str "zzz") (str "k")
        = some (Except.error ⟨ParseError.sectionNotFound, str "zzz"⟩) ∧
      getValueF c4ex 5 (str "s") (str "w")
        = some (Except.error ⟨ParseError.keyNotFound, str "w"⟩) ∧
      getValueF c4ex 5 (str "a.b") (str "q")
        = getValueF c4ex 4 ((str "a.b").take 1) (str "q") :=
  ⟨(C4_lookup_errors c4ex (str "zzz") (str "k") 4 (by decide)).1 rfl,
    ((C4_lookup_errors c4ex (str "s") (str "w") 4 (by decide)).2
      [(str "k", str "v")] rfl rfl).2.1 rfl,
    (((C4_lookup_errors c4ex (str "a.b") (str "q") 4 (by decide)).2
      [(str "z", str "w")] rfl rfl).2.2 1 rfl).2.2⟩

/-- C5: for every (section, key, value) with a non-empty key and a value
containing no %(name)s placeholder, setValue followed by getValue on the
same (section, key) returns exactly the stored value with no error. -/
theorem C5_set_get_roundtrip (c : ConfigFile) (s k v : Str) (fuel : Nat)
    (hk : k ≠ []) (hv : findVar v = none) :
    getValueF ((setValue c s k v).2) (fuel + 1) s k = some (Except.ok v) :=
  getValue_after_set c s k v fuel hk hv

/-- C5 witness: the roundtrip at app.name = 123. -/
theorem C5_set_get_roundtrip_witness :
    ((str "name" : Str) ≠ [] ∧ findVar (str "123") = none) ∧
      getValueF ((setValue newConfigFile (str "app") (str "name") (str "123")).2)
          4 (str "app") (str "name")
        = some (Except.ok (str "123")) :=
  ⟨⟨by decide, rfl⟩,
    C5_set_get_roundtrip newConfigFile (str "app") (str "name") (str "123") 3
      (by decide) rfl⟩

/-- C6 counterexample: setting (s, k) to "A" and then to "%(x)s" makes
the second setValue report an overwrite (false), but the subsequent
getValue does NOT return the second value: the placeholder is
substituted (here unresolved, so replaced by the empty string), and the
read yields "" rather than "%(x)s". -/
theorem C6_counterexample :
    (setValue (setValue newConfigFile (str "s") (str "k") (str "A")).2
        (str "s") (str "k") (str "%(x)s")).1 = false ∧
      getValueF overwriteC 10 (str "s") (str "k") = some (Except.ok []) ∧
      (str "%(x)s" : Str) ≠ [] :=
  ⟨rfl, rfl, by decide⟩

/-- C6 (amended): setValue with an empty key returns false and leaves
the store unchanged; with a non-empty key it creates the section
(appending it to the ordered section list) if absent, stores the value,
and returns true exactly when the key was newly inserted; re-setting an
existing key returns false, and a subsequent getValue returns the second
value provided that value contains no %(name)s placeholder (otherwise
getValue returns its substituted form -- see the counterexample). -/
theorem C6_setValue_semantics :
    (∀ c s v, setValue c s [] v = (false, c)) ∧
    (∀ (c : ConfigFile) (s k v : Str), k ≠ [] →
        lookupA c.data (normSec s) = none →
        ((setValue c s k v).2).sectionList = c.sectionList ++ [normSec s]) ∧
    (∀ (c : ConfigFile) (s k v : Str), k ≠ [] →
        (setValue c s k v).1
          = !(lookupA ((lookupA c.data (normSec s)).getD []) k).isSome) ∧
    (∀ (c : ConfigFile) (s k v1 v2 : Str) (fuel : Nat), k ≠ [] →
        (setValue (setValue c s k v1).2 s k v2).1 = false ∧
        (findVar v2 = none →
          getValueF ((setValue (setValue c s k v1).2 s k v2).2) (fuel + 1) s k
            = some (Except.ok v2))) := by
  refine ⟨fun c s v => rfl,
    fun c s k v hk hnone => setValue_sectionList_new c s k v hk hnone,
    fun c s k v hk => setValue_fst c s k v hk, ?_⟩
  intro c s k v1 v2 fuel hk
  obtain ⟨m, hm, hmk⟩ := setValue_found c s k v1 hk
  constructor
  · rw [setValue_fst _ s k v2 hk, hm]
    simp [hmk]
  · intro hv2
    exact getValue_after_set _ s k v2 fuel hk hv2

/-- C6 witness: the four conjuncts at concrete inputs. -/
theorem C6_setValue_semantics_witness :
    setValue newConfigFile (str "s") [] (str "v") = (false, newConfigFile) ∧
      ((setValue newConfigFile (str "s") (str "k") (str "v")).2).sectionList
        = newConfigFile.sectionList ++ [normSec (str "s")] ∧
      (setValue newConfigFile (str "s") (str "k") (str "v")).1
        = !(lookupA ((lookupA newConfigFile.data (normSec (str "s"))).getD [])
            (str "k")).isSome ∧
      (setValue (setValue newConfigFile (str "s") (str "k") (str "A")).2
          (str "s") (str "k") (str "B")).1 = false ∧
      getValueF ((setValue (setValue newConfigFile (str "s") (str "k") (str "A")).2
          (str "s") (str "k") (str "B")).2) 4 (str "s") (str "k")
        = some (Except.ok (str "B")) :=
  ⟨C6_setValue_semantics.1 newConfigFile (str "s") (str "v"),
    C6_setValue_semantics.2.1 newConfigFile (str "s") (str "k") (str "v")
      (by decide) rfl,
    C6_setValue_semantics.2.2.1 newConfigFile (str "s") (str "k") (str "v")
      (by decide),
    (C6_setValue_semantics.2.2.2 newConfigFile (str "s") (str "k") (str "A")
      (str "B") 3 (by decide)).1,
    (C6_setValue_semantics.2.2.2 newConfigFile (str "s") (str "k") (str "A")
      (str "B") 3 (by decide)).2 rfl⟩

/-- C7: a key parsed as the literal "-" is replaced by the
auto-increment token `#<n>` and the counter advances; any other key
leaves the counter unchanged; every `[section]` header resets the
counter to 1; and parsing `-=first` then `-=second` inside one section
yields #1 -> first and #2 -> second (the " " entry is the sentinel the
reader inserts for every section header). -/
theorem C7_auto_increment :
    (∀ (st : RState) (l : Str) (ch : Char) (rest : Str) (st1 : RState),
        trimSpace l = ch :: rest → ch = '[' → (ch :: rest).getLast? = some ']' →
        processLine st l = Except.ok st1 → st1.count = 1) ∧
    (∀ (count : Nat) (line key : Str) (i : Nat) (k v : Str) (count1 : Nat),
        parseKey line = Except.ok (key, i) →
        parseKV count line = Except.ok (k, v, count1) →
        (key = str "-" → k = '#' :: natToStr count ∧ count1 = count + 1) ∧
        (key ≠ str "-" → k = key ∧ count1 = count)) ∧
    (readLines newConfigFile [str "[s]", str "-=first", str "-=second"]).map
        (fun c => (lookupA c.data (str "s")).getD [])
      = Except.ok [(str " ", str " "),
          (str "#1", str "first"), (str "#2", str "second")] := by
  refine ⟨?_, ?_, rfl⟩
  · intro st l ch rest st1 hl hch hlast hok
    subst hch
    simp only [processLine, hl] at hok
    rw [if_neg (by decide)] at hok
    rw [if_pos (by simp [hlast])] at hok
    cases hok
    rfl
  · intro count line key i k v count1 hpk hkv
    rcases hpv : parseVal line i with e | value
    · simp [parseKV, hpk, hpv] at hkv
    · constructor
      · intro hdash
        simp only [parseKV, hpk, hpv, hdash] at hkv
        simp only [Except.ok.injEq, Prod.mk.injEq, if_pos] at hkv
        exact ⟨hkv.1.symm, hkv.2.2.symm⟩
      · intro hdash
        simp only [parseKV, hpk, hpv, if_neg hdash] at hkv
        simp only [Except.ok.injEq, Prod.mk.injEq] at hkv
        exact ⟨hkv.1.symm, hkv.2.2.symm⟩

/-- C7 witness: the header reset and the auto-increment replacement at
concrete inputs. -/
theorem C7_auto_increment_witness :
    RState.count ⟨1, str "x", [],
        (setValue newConfigFile (str "x") (str " ") (str " ")).2⟩ = 1 ∧
      (str "#3" : Str) = '#' :: natToStr 3 ∧ (4 : Nat) = 3 + 1 :=
  ⟨C7_auto_increment.1 ⟨5, str "s", [], newConfigFile⟩ (str "[x]") '[' (str "x]")
      ⟨1, str "x", [], (setValue newConfigFile (str "x") (str " ") (str " ")).2⟩
      rfl rfl rfl rfl,
    (C7_auto_increment.2.1 3 (str "-=v") (str "-") 1 (str "#3") (str "v") 4
      rfl rfl).1 rfl⟩

/-- C9: the per-section ordered key list records keys in first-insertion
order: a setValue that overwrites (returns false) leaves the whole key
list map unchanged while still storing the new value, and a setValue
that inserts (returns true) appends the key at the end of its section's
key list.  A setValue with an empty key changes nothing. -/
theorem C9_keyList_invariant :
    (∀ c s v, setValue c s [] v = (false, c)) ∧
    (∀ (c : ConfigFile) (s k v : Str), k ≠ [] →
      ((setValue c s k v).1 = false →
        ((setValue c s k v).2).keyList = c.keyList) ∧
      ((setValue c s k v).1 = true →
        lookupA ((setValue c s k v).2).keyList (normSec s)
          = some ((lookupA c.keyList (normSec s)).getD [] ++ [k])) ∧
      (∃ m, lookupA ((setValue c s k v).2).data (normSec s) = some m ∧
        lookupA m k = some v)) := by
  refine ⟨fun c s v => rfl, fun c s k v hk => ⟨?_, ?_, setValue_found c s k v hk⟩⟩
  · intro h1
    rw [setValue_fst c s k v hk] at h1
    refine setValue_keyList_overwrite c s k v hk ?_
    cases hb : (lookupA ((lookupA c.data (normSec s)).getD []) k).isSome
    · rw [hb] at h1
      simp at h1
    · rfl
  · intro h1
    rw [setValue_fst c s k v hk] at h1
    refine setValue_keyList_new c s k v hk ?_
    cases hb : (lookupA ((lookupA c.data (normSec s)).getD []) k).isSome
    · rfl
    · rw [hb] at h1
      simp at h1

/-- C9 witness: a fresh insertion appends to the key list; an overwrite
leaves the key list untouched. -/
theorem C9_keyList_invariant_witness :
    lookupA ((setValue newConfigFile (str "s") (str "k") (str "v")).2).keyList
        (normSec (str "s"))
      = some ((lookupA newConfigFile.keyList (normSec (str "s"))).getD []
          ++ [str "k"]) ∧
      ((setValue (setValue newConfigFile (str "s") (str "k") (str "A")).2
          (str "s") (str "k") (str "B")).2).keyList
        = ((setValue newConfigFile (str "s") (str "k") (str "A")).2).keyList :=
  ⟨(C9_keyList_invariant.2 newConfigFile (str "s") (str "k") (str "v")
      (by decide)).2.1 rfl,
    (C9_keyList_invariant.2 (setValue newConfigFile (str "s") (str "k") (str "A")).2
      (str "s") (str "k") (str "B") (by decide)).1 rfl⟩

/-- C10: with a non-empty default list, MustValue returns the supplied
default both when the underlying lookup errors and when it succeeds with
the empty string; otherwise it returns the looked-up value.  MustBool
(the contrast cited by the claim; MustInt/MustInt64/MustFloat64 share
the identical `err != nil` guard in the source) falls back only on an
error: a successful lookup that parses to `false` is returned as is,
never replaced by the default. -/
theorem C10_mustValue_empty_fallback :
    (∀ (c : ConfigFile) (fuel : Nat) (s k d : Str) (ds : List Str)
        (r : Except getError Str), getValueF c fuel s k = some r →
      (((∃ e, r = Except.error e) ∨ r = Except.ok []) →
        MustValueF c fuel s k (d :: ds) = some d) ∧
      (∀ v, r = Except.ok v → v ≠ [] →
        MustValueF c fuel s k (d :: ds) = some v)) ∧
    (∀ (c : ConfigFile) (fuel : Nat) (s k : Str) (d : Bool) (ds : List Bool)
        (v : Str) (b : Bool), getValueF c fuel s k = some (Except.ok v) →
      parseBool v = some b → MustBoolF c fuel s k (d :: ds) = some b) := by
  constructor
  · intro c fuel s k d ds r hr
    constructor
    · intro hcase
      rcases hcase with ⟨e, he⟩ | he
      · subst he
        simp [MustValueF, hr]
      · subst he
        simp [MustValueF, hr]
    · intro v hv hne
      subst hv
      simp [MustValueF, hr, List.length_eq_zero, hne]
  · intro c fuel s k d ds v b hv hb
    simp [MustBoolF, BoolF, hv, hb]

/-- C10 witness: the empty-string fallback, the error fallback, the
plain-value read-through, and the no-fallback `false` boolean. -/
theorem C10_mustValue_empty_fallback_witness :
    MustValueF c10ex 10 (str "t") (str "e") [str "D"] = some (str "D") ∧
      MustValueF c10ex 10 (str "zz") (str "e") [str "D"] = some (str "D") ∧
      MustValueF c10ex 10 (str "t") (str "bf") [str "D"] = some (str "false") ∧
      MustBoolF c10ex 10 (str "t") (str "bf") [true] = some false :=
  ⟨(C10_mustValue_empty_fallback.1 c10ex 10 (str "t") (str "e") (str "D") []
      (Except.ok []) rfl).1 (Or.inr rfl),
    (C10_mustValue_empty_fallback.1 c10ex 10 (str "zz") (str "e") (str "D") []
      (Except.error ⟨ParseError.sectionNotFound, str "zz"⟩) rfl).1
      (Or.inl ⟨⟨ParseError.sectionNotFound, str "zz"⟩, rfl⟩),
    (C10_mustValue_empty_fallback.1 c10ex 10 (str "t") (str "bf") (str "D") []
      (Except.ok (str "false")) rfl).2 (str "false") rfl (by decide),
    C10_mustValue_empty_fallback.2 c10ex 10 (str "t") (str "bf") true []
      (str "false") false rfl rfl⟩

theorem parseKey_error_shape (line : Str) (e : readError)
    (h : parseKey line = Except.error e) : e = ⟨ParseError.couldNotParse, line⟩ := by
  unfold parseKey at h
  split at h
  · split at h
    · exact (Except.error.inj h).symm
    · split at h
      · exact (Except.error.inj h).symm
      · exact Except.noConfusion h
  · split at h
    · exact (Except.error.inj h).symm
    · split at h
      · exact (Except.error.inj h).symm
      · split at h
        · exact (Except.error.inj h).symm
        · exact Except.noConfusion h

theorem parseVal_error_shape (line : Str) (i : Nat) (e : readError)
    (h : parseVal line i = Except.error e) : e = ⟨ParseError.couldNotParse, line⟩ := by
  unfold parseVal at h
  split at h
  · exact Except.noConfusion h
  · split at h
    · exact (Except.error.inj h).symm
    · exact Except.noConfusion h

theorem parseKey_error_iff (line : Str) :
    (∃ e, parseKey line = Except.error e) ↔
      keyTermMissing line ∨ keyDelimMissing line ∨ unquotedDelimMissing line := by
  by_cases hkq : keyQuoteOf line = []
  · rcases hia : indexAny line with _ | i
    · have heval : parseKey line = Except.error ⟨ParseError.couldNotParse, line⟩ := by
        unfold parseKey
        rw [if_pos hkq, hia]
      exact iff_of_true ⟨_, heval⟩ (Or.inr (Or.inr ⟨hkq, Or.inl hia⟩))
    · by_cases hi : i = 0
      · subst hi
        have heval : parseKey line = Except.error ⟨ParseError.couldNotParse, line⟩ := by
          simp [parseKey, hkq, hia]
        exact iff_of_true ⟨_, heval⟩ (Or.inr (Or.inr ⟨hkq, Or.inr hia⟩))
      · have heval : parseKey line = Except.ok (trimSpace (line.take i), i) := by
          simp [parseKey, hkq, hia, hi]
        refine iff_of_false ?_ ?_
        · rintro ⟨e, he⟩
          rw [heval] at he
          exact Except.noConfusion he
        · rintro (⟨hne, _⟩ | ⟨hne, _⟩ | ⟨_, hor⟩)
          · exact hne hkq
          · exact hne hkq
          · rcases hor with h0 | h0
            · rw [hia] at h0
              exact Option.noConfusion h0
            · rw [hia] at h0
              exact hi (Option.some.inj h0)
  · rcases hsub : indexOfSub (line.drop (keyQuoteOf line).length) (keyQuoteOf line)
        with _ | p
    · have heval : parseKey line = Except.error ⟨ParseError.couldNotParse, line⟩ := by
        unfold parseKey
        rw [if_neg hkq, hsub]
      exact iff_of_true ⟨_, heval⟩ (Or.inl ⟨hkq, hsub⟩)
    · rcases hia : indexAny (line.drop (p + (keyQuoteOf line).length)) with _ | i0
      · have heval : parseKey line = Except.error ⟨ParseError.couldNotParse, line⟩ := by
          simp [parseKey, hkq, hsub, hia]
        exact iff_of_true ⟨_, heval⟩ (Or.inr (Or.inl ⟨hkq, p, hsub, Or.inl hia⟩))
      · by_cases hi0 : i0 = 0
        · subst hi0
          have heval : parseKey line = Except.error ⟨ParseError.couldNotParse, line⟩ := by
            simp [parseKey, hkq, hsub, hia]
          exact iff_of_true ⟨_, heval⟩ (Or.inr (Or.inl ⟨hkq, p, hsub, Or.inr hia⟩))
        · have heval : parseKey line
              = Except.ok ((line.drop (keyQuoteOf line).length).take p,
                i0 + (p + (keyQuoteOf line).length)) := by
            simp [parseKey, hkq, hsub, hia, hi0]
          refine iff_of_false ?_ ?_
          · rintro ⟨e, he⟩
            rw [heval] at he
            exact Except.noConfusion he
          · rintro (⟨_, h0⟩ | ⟨_, hp⟩ | ⟨h0, _⟩)
            · rw [hsub] at h0
              exact Option.noConfusion h0
            · obtain ⟨p2, hp2, hor⟩ := hp
              rw [hsub] at hp2
              obtain rfl : p = p2 := Option.some.inj hp2
              rcases hor with h0 | h0
              · rw [hia] at h0
                exact Option.noConfusion h0
              · rw [hia] at h0
                exact hi0 (Option.some.inj h0)
            · exact hkq h0

theorem parseVal_error_iff (line : Str) (i : Nat) :
    (∃ e, parseVal line i = Except.error e) ↔ valTermMissing line i := by
  by_cases hvq : valQuoteOf (trimSpace (line.drop (i + 1))) = []
  · have heval : parseVal line i
        = Except.ok (trimSpace (trimSpace (line.drop (i + 1)))) := by
      unfold parseVal
      rw [if_pos hvq]
    refine iff_of_false ?_ ?_
    · rintro ⟨e, he⟩
      rw [heval] at he
      exact Except.noConfusion he
    · rintro ⟨hne, _⟩
      exact hne hvq
  · rcases hli : lastIndexOfSub ((trimSpace (line.drop (i + 1))).drop
        (valQuoteOf (trimSpace (line.drop (i + 1)))).length)
        (valQuoteOf (trimSpace (line.drop (i + 1)))) with _ | p
    · have heval : parseVal line i = Except.error ⟨ParseError.couldNotParse, line⟩ := by
        unfold parseVal
        rw [if_neg hvq, hli]
      exact iff_of_true ⟨_, heval⟩ ⟨hvq, hli⟩
    · have heval : parseVal line i
          = Except.ok (((trimSpace (line.drop (i + 1))).drop
              (valQuoteOf (trimSpace (line.drop (i + 1)))).length).take p) := by
        unfold parseVal
        rw [if_neg hvq, hli]
      refine iff_of_false ?_ ?_
      · rintro ⟨e, he⟩
        rw [heval] at he
        exact Except.noConfusion he
      · rintro ⟨_, h0⟩
        rw [hli] at h0
        exact Option.noConfusion h0

/-- C8 counterexample: the claim's "exactly when" enumeration is not
exhaustive.  The line `k=` followed by a backtick and `x` is unquoted
with its delimiter at index 1 (so none of the claim's conditions hold),
yet parsing fails with CouldNotParse: the value opens with a backtick
quote whose terminator is never found (read.go lines 552-557). -/
theorem C8_counterexample :
    parseKV 1 (str "k=`x") = Except.error ⟨ParseError.couldNotParse, str "k=`x"⟩ ∧
      keyQuoteOf (str "k=`x") = [] ∧
      indexAny (str "k=`x") = some 1 :=
  ⟨rfl, rfl, rfl⟩

/-- C8 (amended): a key/value line fails, always with a CouldNotParse
error carrying the full line, exactly when one of the following holds:
the line opens with a key quote marker whose terminator is not found
past the opening marker; a quoted key is terminated but no `=`/`:`
delimiter follows the closing marker (or it sits immediately at it); an
unquoted line has no `=`/`:` delimiter or the delimiter is at position 0
(empty key); or the key parses and the trimmed value opens with a
backtick (length at least 2) or triple-double-quote (length at least 6)
marker whose terminator is not found in the remainder. -/
theorem C8_couldNotParse_conditions (count : Nat) (line : Str) :
    (parseKV count line = Except.error ⟨ParseError.couldNotParse, line⟩ ↔
      keyTermMissing line ∨ keyDelimMissing line ∨ unquotedDelimMissing line ∨
        (∃ key i, parseKey line = Except.ok (key, i) ∧ valTermMissing line i)) ∧
    (∀ e, parseKV count line = Except.error e →
      e = ⟨ParseError.couldNotParse, line⟩) := by
  rcases hpk : parseKey line with e0 | ki
  · have he0 : e0 = ⟨ParseError.couldNotParse, line⟩ :=
      parseKey_error_shape line e0 hpk
    subst he0
    have heval : parseKV count line
        = Except.error ⟨ParseError.couldNotParse, line⟩ := by
      simp only [parseKV, hpk]
    constructor
    · refine iff_of_true heval ?_
      rcases (parseKey_error_iff line).mp ⟨_, hpk⟩ with h | h | h
      · exact Or.inl h
      · exact Or.inr (Or.inl h)
      · exact Or.inr (Or.inr (Or.inl h))
    · intro e1 he1
      rw [heval] at he1
      exact (Except.error.inj he1).symm
  · obtain ⟨key, i⟩ := ki
    rcases hpv : parseVal line i with e2 | value
    · have he2 : e2 = ⟨ParseError.couldNotParse, line⟩ :=
        parseVal_error_shape line i e2 hpv
      subst he2
      have heval : parseKV count line
          = Except.error ⟨ParseError.couldNotParse, line⟩ := by
        simp only [parseKV, hpk, hpv]
      constructor
      · exact iff_of_true heval (Or.inr (Or.inr (Or.inr
          ⟨key, i, rfl, (parseVal_error_iff line i).mp ⟨_, hpv⟩⟩)))
      · intro e1 he1
        rw [heval] at he1
        exact (Except.error.inj he1).symm
    · obtain ⟨r, heval⟩ : ∃ r, parseKV count line = Except.ok r := by
        simp only [parseKV, hpk, hpv]
        exact ⟨_, rfl⟩
      constructor
      · refine iff_of_false ?_ ?_
        · intro hEq
          rw [heval] at hEq
          exact Except.noConfusion hEq
        · rintro (h | h | h | h)
          · obtain ⟨e1, he1⟩ := (parseKey_error_iff line).mpr (Or.inl h)
            rw [hpk] at he1
            exact Except.noConfusion he1
          · obtain ⟨e1, he1⟩ := (parseKey_error_iff line).mpr (Or.inr (Or.inl h))
            rw [hpk] at he1
            exact Except.noConfusion he1
          · obtain ⟨e1, he1⟩ := (parseKey_error_iff line).mpr (Or.inr (Or.inr h))
            rw [hpk] at he1
            exact Except.noConfusion he1
          · obtain ⟨key2, i2, hpk2, hvt⟩ := h
            have hii : i = i2 := congrArg Prod.snd (Except.ok.inj hpk2)
            obtain ⟨e2, he2⟩ := (parseVal_error_iff line i2).mpr hvt
            rw [← hii, hpv] at he2
            exact Except.noConfusion he2
      · intro e1 he1
        rw [heval] at he1
        exact Except.noConfusion he1

/-- C8 witness: the amended characterization applied to the line `=x`
(delimiter at position 0). -/
theorem C8_couldNotParse_conditions_witness :
    parseKV 2 (str "=x") = Except.error ⟨ParseError.couldNotParse, str "=x"⟩ :=
  (C8_couldNotParse_conditions 2 (str "=x")).1.mpr
    (Or.inr (Or.inr (Or.inl ⟨rfl, Or.inr rfl⟩)))

theorem parseKV_error_shape (count : Nat) (line : Str) (e : readError)
    (h : parseKV count line = Except.error e) :
    e = ⟨ParseError.couldNotParse, line⟩ := by
  rcases hpk : parseKey line with e0 | ki
  · simp only [parseKV, hpk] at h
    have he := Except.error.inj h
    rw [← he]
    exact parseKey_error_shape line e0 hpk
  · obtain ⟨key, i⟩ := ki
    rcases hpv : parseVal line i with e2 | value
    · simp only [parseKV, hpk, hpv] at h
      have he := Except.error.inj h
      rw [← he]
      exact parseVal_error_shape line i e2 hpv
    · simp [parseKV, hpk, hpv] at h

theorem processLine_bsn_only_when_blank (st : RState) (l : Str) (e : readError)
    (h : processLine st l = Except.error e)
    (hr : e.Reason = ParseError.blankSectionName) :
    st.sec = [] ∧ e = ⟨ParseError.blankSectionName, trimSpace l⟩ := by
  unfold processLine at h
  rcases hl : trimSpace l with _ | ⟨ch, rest⟩
  · simp only [hl] at h
    exact Except.noConfusion h
  · simp only [hl] at h
    by_cases hcm : ch = '#' ∨ ch = ';'
    · rw [if_pos hcm] at h
      exact Except.noConfusion h
    · rw [if_neg hcm] at h
      by_cases hhd : ch = '[' ∧ (ch :: rest).getLast? = some ']'
      · rw [if_pos hhd] at h
        exact Except.noConfusion h
      · rw [if_neg hhd] at h
        by_cases hsec : st.sec = []
        · rw [if_pos hsec] at h
          exact ⟨hsec, (Except.error.inj h).symm⟩
        · rw [if_neg hsec] at h
          rcases hkv : parseKV st.count (ch :: rest) with e2 | ⟨k2, v2, n2⟩
          · simp only [hkv] at h
            have he : e2 = e := Except.error.inj h
            have hshape := parseKV_error_shape st.count (ch :: rest) e2 hkv
            rw [← he, hshape] at hr
            exact ParseError.noConfusion hr
          · simp only [hkv] at h
            exact Except.noConfusion h

theorem processLine_sec_evolution (st : RState) (l : Str) (st1 : RState)
    (h : processLine st l = Except.ok st1) (h1 : st1.sec = []) :
    st.sec = [] ∨ emptyHeaderLine (trimSpace l) = true := by
  unfold processLine at h
  rcases hl : trimSpace l with _ | ⟨ch, rest⟩
  · simp only [hl] at h
    cases h
    exact Or.inl h1
  · simp only [hl] at h
    by_cases hcm : ch = '#' ∨ ch = ';'
    · rw [if_pos hcm] at h
      cases h
      exact Or.inl h1
    · rw [if_neg hcm] at h
      by_cases hhd : ch = '[' ∧ (ch :: rest).getLast? = some ']'
      · obtain ⟨hch, hlast⟩ := hhd
        subst hch
        rw [if_pos ⟨rfl, hlast⟩] at h
        cases h
        right
        simp [emptyHeaderLine, hlast]
        exact h1
      · rw [if_neg hhd] at h
        by_cases hsec : st.sec = []
        · exact Or.inl hsec
        · rw [if_neg hsec] at h
          rcases hkv : parseKV st.count (ch :: rest) with e2 | ⟨k2, v2, n2⟩
          · simp only [hkv] at h
            exact Except.noConfusion h
          · simp only [hkv] at h
            cases h
            exact Or.inl h1

theorem readLoop_no_bsn (lines : List Str) (st : RState) (e : readError)
    (hsec : st.sec ≠ [])
    (hlines : ∀ l ∈ lines, emptyHeaderLine (trimSpace l) = false)
    (h : readLoop st lines = Except.error e) :
    e.Reason ≠ ParseError.blankSectionName := by
  induction lines generalizing st with
  | nil => simp [readLoop] at h
  | cons l ls ih =>
    simp only [readLoop] at h
    rcases hpl : processLine st l with e1 | st1
    · simp only [hpl] at h
      have he : e1 = e := Except.error.inj h
      subst he
      intro hr
      obtain ⟨hblank, _⟩ := processLine_bsn_only_when_blank st l e1 hpl hr
      exact hsec hblank
    · simp only [hpl] at h
      refine ih st1 ?_ (fun l2 hl2 => hlines l2 (List.mem_cons_of_mem _ hl2)) h
      intro h1
      rcases processLine_sec_evolution st l st1 hpl h1 with h2 | h2
      · exact hsec h2
      · rw [hlines l (List.mem_cons_self _ _)] at h2
        exact Bool.noConfusion h2

/-- C2 (amended): a key/value line fails with BlankSectionName exactly
when the current section name is the empty string; since the reader
starts with current section DEFAULT, that state is reachable only after
a section header whose trimmed inner text is empty (such as `[]`).
Key/value lines before any header are stored in the DEFAULT section
(see the counterexample).  Conjunct 1: any non-empty, non-comment,
non-header line processed while the current section name is empty yields
`BlankSectionName` carrying the trimmed line.  Conjunct 2 (converse):
whenever processing a line errors with reason BlankSectionName, the
current section name was empty and the error carries the trimmed line.
Conjunct 3 (reachability): a stream containing no header with empty
trimmed inner text can never fail with BlankSectionName.  Conjunct 4:
the stream `[]` then `a=1` fails with `BlankSectionName(a=1)`. -/
theorem C2_blank_section_name :
    (∀ (st : RState) (l : Str) (ch : Char) (rest : Str),
        trimSpace l = ch :: rest →
        ¬(ch = '#' ∨ ch = ';') →
        ¬(ch = '[' ∧ (ch :: rest).getLast? = some ']') →
        st.sec = [] →
        processLine st l
          = Except.error ⟨ParseError.blankSectionName, ch :: rest⟩) ∧
    (∀ (st : RState) (l : Str) (e : readError),
        processLine st l = Except.error e →
        e.Reason = ParseError.blankSectionName →
        st.sec = [] ∧ e = ⟨ParseError.blankSectionName, trimSpace l⟩) ∧
    (∀ (c : ConfigFile) (lines : List Str) (e : readError),
        (∀ l ∈ lines, emptyHeaderLine (trimSpace l) = false) →
        readLines c lines = Except.error e →
        e.Reason ≠ ParseError.blankSectionName) ∧
      readLines newConfigFile [str "[]", str "a=1"]
        = Except.error ⟨ParseError.blankSectionName, str "a=1"⟩ := by
  refine ⟨?_, ?_, ?_, rfl⟩
  · intro st l ch rest hl hcm hhd hsec
    simp only [processLine, hl]
    rw [if_neg hcm, if_neg hhd, if_pos hsec]
  · exact processLine_bsn_only_when_blank
  · intro c lines e hlines h
    unfold readLines at h
    rcases hrl : readLoop ⟨1, DEFAULT_SECTION, [], c⟩ lines with e1 | st1
    · simp only [hrl] at h
      have he : e1 = e := Except.error.inj h
      subst he
      have hne : DEFAULT_SECTION ≠ ([] : Str) := by decide
      exact readLoop_no_bsn lines _ e1 hne hlines hrl
    · simp only [hrl] at h
      exact Except.noConfusion h

/-- C2 witness: the forward direction at the post-`[]` state and the
line `x=1`; the converse at the same input; the reachability conjunct on
the header-free stream `x` (which fails, but with CouldNotParse); and
the concrete `[]` stream. -/
theorem C2_blank_section_name_witness :
    processLine ⟨1, [], [], newConfigFile⟩ (str "x=1")
        = Except.error ⟨ParseError.blankSectionName, str "x=1"⟩ ∧
      (([] : Str) = [] ∧
        (⟨ParseError.blankSectionName, str "x=1"⟩ : readError)
          = ⟨ParseError.blankSectionName, trimSpace (str "x=1")⟩) ∧
      (⟨ParseError.couldNotParse, str "x"⟩ : readError).Reason
          ≠ ParseError.blankSectionName ∧
      readLines newConfigFile [str "[]", str "a=1"]
        = Except.error ⟨ParseError.blankSectionName, str "a=1"⟩ :=
  ⟨C2_blank_section_name.1 ⟨1, [], [], newConfigFile⟩ (str "x=1") 'x' (str "=1")
      rfl (by decide) (by decide) rfl,
    C2_blank_section_name.2.1 ⟨1, [], [], newConfigFile⟩ (str "x=1")
      ⟨ParseError.blankSectionName, str "x=1"⟩ rfl rfl,
    C2_blank_section_name.2.2.1 newConfigFile [str "x"]
      ⟨ParseError.couldNotParse, str "x"⟩ (by decide) rfl,
    C2_blank_section_name.2.2.2⟩

end Goconfig
